import Mathlib

/-!
# HablaBeat DDR game core — verification

Shallow embedding of the note-scheduling and judgment engine of
`src/components/ddr-game.tsx`: note generation from a lyric timing track
(`createNotes`), input judgment (`handleKey` / `handleTouch`, identical
logic, modelled once as `judge`), the per-frame auto-miss sweep inside the
render loop (`sweep`), and end-of-session grading (`getGrade`).

JavaScript numbers are modelled as rationals (`ℚ`); all timing constants
of the source are exact decimals, so comparisons are faithful.
-/

namespace HablaBeat

/-- One word of a lyric line, as carried by the timing track
(`KaraokeWord` in the source). -/
structure KaraokeWord where
  id : ℕ
  text : String
  duration : ℚ
  timestamp : ℚ
deriving DecidableEq

/-- One lyric line of the timing track (`KaraokeLine` in the source). -/
structure KaraokeLine where
  id : ℕ
  words : List KaraokeWord
deriving DecidableEq

/-- A schedulable note (`Note` in the source). -/
structure Note where
  text : String
  english : String
  timestamp : ℚ
  duration : ℚ
  lane : ℕ
  hit : Bool
  id : String
deriving DecidableEq

/-- The source's `HIT_WINDOWS.PERFECT`. -/
def PERFECT_WINDOW : ℚ := 8/100

/-- The source's `HIT_WINDOWS.GOOD`. -/
def GOOD_WINDOW : ℚ := 15/100

/-- The source's `HIT_WINDOWS.MISS`. -/
def MISS_WINDOW : ℚ := 25/100

/-- The flattening loop of `createNotes`: all words of all lines in
(line, word) order, each word becoming a note with lane
`(lineIndex + wordIndex) % 4`, id `"<lineIndex>-<wordIndex>"` and
`hit = false`.  `translateWord` is the external dictionary collaborator. -/
def flattenNotes (translateWord : String → String) (lyrics : List KaraokeLine) :
    List Note :=
  (lyrics.enum.map (fun li =>
    li.2.words.enum.map (fun wi =>
      { text := wi.2.text
        english := translateWord wi.2.text
        timestamp := wi.2.timestamp
        duration := wi.2.duration
        lane := (li.1 + wi.1) % 4
        hit := false
        id := toString li.1 ++ "-" ++ toString wi.1 : Note }))).flatten

/-- JavaScript `Array.prototype.filter` with the element index exposed to
the predicate, starting from index `i`. -/
def filterIdxFrom (p : ℕ → Bool) : ℕ → List α → List α
  | _, [] => []
  | i, a :: l =>
    if p i then a :: filterIdxFrom p (i + 1) l else filterIdxFrom p (i + 1) l

/-- The difficulty filter predicate of `createNotes`, exactly as the
source's chain of `if` statements (any difficulty other than 2..5 falls
through to the `index % 5 === 0` rule). -/
def difficultyKeep (difficulty : ℕ) (index : ℕ) : Bool :=
  if difficulty = 5 then true
  else if difficulty = 4 then index % 4 ≠ 3
  else if difficulty = 3 then index % 2 = 0
  else if difficulty = 2 then index % 3 = 0
  else index % 5 = 0

/-- The source's `createNotes`: flatten, then filter by index position
according to the difficulty. -/
def createNotes (translateWord : String → String) (lyrics : List KaraokeLine)
    (difficulty : ℕ) : List Note :=
  filterIdxFrom (difficultyKeep difficulty) 0 (flattenNotes translateWord lyrics)

/-- Reference difficulty rule, following the spec's table literally:
5 keeps all indices, 4 keeps indices with `index % 4 ≠ 3`, 3 keeps even
indices, 2 keeps indices divisible by 3, 1 keeps indices divisible by 5. -/
def specKeep (difficulty : ℕ) (index : ℕ) : Bool :=
  match difficulty with
  | 5 => true
  | 4 => index % 4 ≠ 3
  | 3 => index % 2 = 0
  | 2 => index % 3 = 0
  | 1 => index % 5 = 0
  | _ => false

/-- Reference note generation, following the spec's words: the flattened
(line, word)-ordered note list restricted to the indices the spec's
difficulty table keeps. -/
def specGenerate (translateWord : String → String) (lyrics : List KaraokeLine)
    (difficulty : ℕ) : List Note :=
  filterIdxFrom (specKeep difficulty) 0 (flattenNotes translateWord lyrics)

/-- The mutable session state of the source: the created note list
(`notesRef`), `scoreRef`, `comboRef` (the streak), `maxComboRef` and
`totalHitsRef` (the hit count). -/
structure GameState where
  notes : List Note
  score : ℕ
  combo : ℕ
  maxCombo : ℕ
  totalHits : ℕ
deriving DecidableEq

/-- The judgment tier of a hit, as distinguished by the three branches of
the source's classification (`PERFECT`/`GOOD`/`OK` feedback labels). -/
inductive Judgment where
  | PERFECT
  | GOOD
  | OK
deriving DecidableEq

/-- Tier classification of `handleKey`/`handleTouch` as a function of the
absolute timing delta: `timeDelta <= HIT_WINDOWS.PERFECT`, then
`timeDelta <= HIT_WINDOWS.GOOD`, else the `OK` branch. -/
def judgmentOf (d : ℚ) : Judgment :=
  if d ≤ PERFECT_WINDOW then .PERFECT
  else if d ≤ GOOD_WINDOW then .GOOD
  else .OK

/-- The `points` value each classification branch assigns (25 in all
three branches of the source). -/
def pointsOf : Judgment → ℕ
  | .PERFECT => 25
  | .GOOD => 25
  | .OK => 25

/-- What a successful judgment hands to the presentation layer: the lane,
the tier and the judged note. -/
structure JudgmentResult where
  lane : ℕ
  tier : Judgment
  note : Note
deriving DecidableEq

/-- JavaScript `Array.prototype.filter` over a decidable predicate. -/
def filterP (p : α → Prop) [DecidablePred p] : List α → List α
  | [] => []
  | a :: l => if p a then a :: filterP p l else filterP p l

/-- The eligibility condition of the source's candidate filter: same
lane, not yet hit, within `HIT_WINDOWS.MISS` of the current time. -/
def eligible (lane : ℕ) (t : ℚ) (c : ℕ × Note) : Prop :=
  c.2.lane = lane ∧ c.2.hit = false ∧ |c.2.timestamp - t| ≤ MISS_WINDOW

instance (lane : ℕ) (t : ℚ) : DecidablePred (eligible lane t) := fun _c =>
  inferInstanceAs (Decidable (_ ∧ _ ∧ _))

/-- The candidate filter of `handleKey`/`handleTouch`: unhit notes of the
pressed lane within `HIT_WINDOWS.MISS` of the current time.  Each note is
paired with its position in the note list, standing for the object
identity the source's in-place mutation relies on. -/
def candidatesOf (lane : ℕ) (t : ℚ) (notes : List Note) : List (ℕ × Note) :=
  filterP (eligible lane t) notes.enum

/-- One step of the source's `candidates.reduce((a, b) =>
|a.timestamp - t| < |b.timestamp - t| ? a : b)`: keeps the accumulator
only when it is strictly closer, so an exact tie moves to `b`. -/
def closer (t : ℚ) (a b : ℕ × Note) : ℕ × Note :=
  if |a.2.timestamp - t| < |b.2.timestamp - t| then a else b

/-- JavaScript `reduce` without an initial value, folding `closer` from
the first candidate: the selected note of `handleKey`/`handleTouch`. -/
def pickClosest (t : ℚ) : List (ℕ × Note) → Option (ℕ × Note)
  | [] => none
  | c :: cs => some (cs.foldl (closer t) c)

/-- The judgment logic shared verbatim by `handleKey` and `handleTouch`:
select candidates, pick the closest, classify, then mark the note hit and
update `score`, `combo`, `maxCombo` and `totalHits`.  Returns the updated
state and the judgment result (`none` when `candidates.length === 0`). -/
def judge (lane : ℕ) (t : ℚ) (s : GameState) : GameState × Option JudgmentResult :=
  match pickClosest t (candidatesOf lane t s.notes) with
  | none => (s, none)
  | some c =>
    let timeDelta := |c.2.timestamp - t|
    let j := judgmentOf timeDelta
    ({ notes := s.notes.set c.1 { c.2 with hit := true }
       score := s.score + pointsOf j
       combo := s.combo + 1
       maxCombo := max s.maxCombo (s.combo + 1)
       totalHits := s.totalHits + 1 },
     some { lane := lane, tier := j, note := c.2 })

/-- The auto-miss condition of the render loop: an unhit note whose
timestamp lies more than `HIT_WINDOWS.MISS` in the past. -/
def expired (t : ℚ) (n : Note) : Prop :=
  n.hit = false ∧ n.timestamp + MISS_WINDOW < t

instance (t : ℚ) : DecidablePred (expired t) := fun _n =>
  inferInstanceAs (Decidable (_ ∧ _))

/-- Effect of one render-loop pass on a single note: an expired unhit
note gets `hit = true`, every other note is untouched. -/
def missNote (t : ℚ) (n : Note) : Note :=
  if expired t n then { n with hit := true } else n

/-- The auto-miss sweep of the render loop (`notesRef.current.forEach`):
every expired unhit note is marked hit, and the combo is reset to 0 as
soon as one such note exists; score, max combo and hit count are not
touched. -/
def sweep (t : ℚ) (s : GameState) : GameState :=
  { s with
    notes := s.notes.map (missNote t)
    combo := if ∃ n ∈ s.notes, expired t n then 0 else s.combo }

/-- A discrete event of a running session: a lane press (keyboard or
touch, judged identically) or a render tick (auto-miss sweep), each
reading the audio clock at its own time. -/
inductive GameEvent where
  | press (lane : ℕ) (t : ℚ)
  | tick (t : ℚ)

/-- State effect of one event. -/
def stepEvent : GameEvent → GameState → GameState
  | .press lane t, s => (judge lane t s).1
  | .tick t, s => sweep t s

/-- A session run: fold the events over an initial state. -/
def runEvents : List GameEvent → GameState → GameState
  | [], s => s
  | e :: es, s => runEvents es (stepEvent e s)

/-- The source's `startGame`: install the created notes and zero every
counter. -/
def startState (notes : List Note) : GameState :=
  { notes := notes, score := 0, combo := 0, maxCombo := 0, totalHits := 0 }

/-- The source's `getGrade`: percentage of notes hit against fixed
thresholds, with an empty note list short-circuiting to F before any
division. -/
def getGrade (totalHits : ℕ) (total : ℕ) : String × String :=
  if total = 0 then ("F", "text-red-400")
  else
    let pct : ℚ := ((totalHits : ℚ) / (total : ℚ)) * 100
    if 97 ≤ pct then ("A+", "text-yellow-300")
    else if 93 ≤ pct then ("A", "text-yellow-400")
    else if 90 ≤ pct then ("A-", "text-yellow-500")
    else if 87 ≤ pct then ("B+", "text-green-300")
    else if 83 ≤ pct then ("B", "text-green-400")
    else if 80 ≤ pct then ("B-", "text-green-500")
    else if 77 ≤ pct then ("C+", "text-blue-300")
    else if 73 ≤ pct then ("C", "text-blue-400")
    else if 70 ≤ pct then ("C-", "text-blue-500")
    else if 67 ≤ pct then ("D+", "text-orange-300")
    else if 63 ≤ pct then ("D", "text-orange-400")
    else if 60 ≤ pct then ("D-", "text-orange-500")
    else ("F", "text-red-400")

/-- Reference grading letter, following the spec's threshold table as a
pure function of the percentage. -/
def gradeOfPct (pct : ℚ) : String :=
  if 97 ≤ pct then "A+"
  else if 93 ≤ pct then "A"
  else if 90 ≤ pct then "A-"
  else if 87 ≤ pct then "B+"
  else if 83 ≤ pct then "B"
  else if 80 ≤ pct then "B-"
  else if 77 ≤ pct then "C+"
  else if 73 ≤ pct then "C"
  else if 70 ≤ pct then "C-"
  else if 67 ≤ pct then "D+"
  else if 63 ≤ pct then "D"
  else if 60 ≤ pct then "D-"
  else "F"

/-! ## Helper lemmas -/

lemma mem_filterP {p : α → Prop} [DecidablePred p] {l : List α} {a : α} :
    a ∈ filterP p l ↔ a ∈ l ∧ p a := by
  induction l with
  | nil => simp [filterP]
  | cons b l ih =>
    by_cases hb : p b
    · simp only [filterP, if_pos hb, List.mem_cons, ih]
      constructor
      · rintro (rfl | ⟨hm, hp⟩)
        · exact ⟨Or.inl rfl, hb⟩
        · exact ⟨Or.inr hm, hp⟩
      · rintro ⟨rfl | hm, hp⟩
        · exact Or.inl rfl
        · exact Or.inr ⟨hm, hp⟩
    · simp only [filterP, if_neg hb, List.mem_cons, ih]
      constructor
      · rintro ⟨hm, hp⟩
        exact ⟨Or.inr hm, hp⟩
      · rintro ⟨rfl | hm, hp⟩
        · exact absurd hp hb
        · exact ⟨hm, hp⟩

lemma filterP_eq_nil {p : α → Prop} [DecidablePred p] {l : List α}
    (h : ∀ a ∈ l, ¬ p a) : filterP p l = [] := by
  induction l with
  | nil => rfl
  | cons b l ih =>
    rw [filterP, if_neg (h b (List.mem_cons_self b l))]
    exact ih fun a ha => h a (List.mem_cons_of_mem b ha)

lemma filterIdxFrom_sublist (p : ℕ → Bool) :
    ∀ (l : List α) (i : ℕ), (filterIdxFrom p i l).Sublist l := by
  intro l
  induction l with
  | nil => intro i; simp [filterIdxFrom]
  | cons a l ih =>
    intro i
    rw [filterIdxFrom]
    by_cases hp : p i
    · rw [if_pos hp]
      exact (ih (i + 1)).cons₂ a
    · rw [if_neg hp]
      exact (ih (i + 1)).cons a

lemma filterIdxFrom_congr {p q : ℕ → Bool} (h : ∀ j, p j = q j) :
    ∀ (l : List α) (i : ℕ), filterIdxFrom p i l = filterIdxFrom q i l := by
  intro l
  induction l with
  | nil => intro i; rfl
  | cons a l ih => intro i; rw [filterIdxFrom, filterIdxFrom, h i, ih (i + 1)]

lemma filterIdxFrom_true {p : ℕ → Bool} (h : ∀ j, p j = true) :
    ∀ (l : List α) (i : ℕ), filterIdxFrom p i l = l := by
  intro l
  induction l with
  | nil => intro i; rfl
  | cons a l ih => intro i; rw [filterIdxFrom, if_pos (h i), ih (i + 1)]

lemma closer_eq_or (t : ℚ) (a b : ℕ × Note) : closer t a b = a ∨ closer t a b = b := by
  unfold closer
  split
  · exact Or.inl rfl
  · exact Or.inr rfl

lemma closer_le_left (t : ℚ) (a b : ℕ × Note) :
    |(closer t a b).2.timestamp - t| ≤ |a.2.timestamp - t| := by
  unfold closer
  split
  · exact le_refl _
  · exact le_of_not_lt (by assumption)

lemma closer_le_right (t : ℚ) (a b : ℕ × Note) :
    |(closer t a b).2.timestamp - t| ≤ |b.2.timestamp - t| := by
  unfold closer
  split
  · exact le_of_lt (by assumption)
  · exact le_refl _

lemma foldl_closer_mem (t : ℚ) :
    ∀ (cs : List (ℕ × Note)) (a : ℕ × Note),
      cs.foldl (closer t) a = a ∨ cs.foldl (closer t) a ∈ cs := by
  intro cs
  induction cs with
  | nil => intro a; exact Or.inl rfl
  | cons b cs ih =>
    intro a
    rw [List.foldl_cons]
    rcases ih (closer t a b) with h | h
    · rcases closer_eq_or t a b with hc | hc
      · exact Or.inl (h.trans hc)
      · rw [h, hc]
        exact Or.inr (List.mem_cons_self b cs)
    · exact Or.inr (List.mem_cons_of_mem b h)

lemma foldl_closer_min (t : ℚ) :
    ∀ (cs : List (ℕ × Note)) (a : ℕ × Note),
      |(cs.foldl (closer t) a).2.timestamp - t| ≤ |a.2.timestamp - t| ∧
      ∀ m ∈ cs, |(cs.foldl (closer t) a).2.timestamp - t| ≤ |m.2.timestamp - t| := by
  intro cs
  induction cs with
  | nil => intro a; exact ⟨le_refl _, by simp⟩
  | cons b cs ih =>
    intro a
    rw [List.foldl_cons]
    obtain ⟨h1, h2⟩ := ih (closer t a b)
    refine ⟨h1.trans (closer_le_left t a b), ?_⟩
    intro m hm
    rcases List.mem_cons.mp hm with rfl | hm
    · exact h1.trans (closer_le_right t a m)
    · exact h2 m hm

lemma pickClosest_mem {t : ℚ} {ns : List (ℕ × Note)} {c : ℕ × Note}
    (h : pickClosest t ns = some c) : c ∈ ns := by
  cases ns with
  | nil => exact absurd h (by simp [pickClosest])
  | cons a cs =>
    rw [pickClosest, Option.some.injEq] at h
    rcases foldl_closer_mem t cs a with hm | hm
    · rw [show c = a from h.symm.trans hm]
      exact List.mem_cons_self a cs
    · exact List.mem_cons_of_mem a (h ▸ hm)

lemma pickClosest_min {t : ℚ} {ns : List (ℕ × Note)} {c : ℕ × Note}
    (h : pickClosest t ns = some c) :
    ∀ m ∈ ns, |c.2.timestamp - t| ≤ |m.2.timestamp - t| := by
  cases ns with
  | nil => exact absurd h (by simp [pickClosest])
  | cons a cs =>
    rw [pickClosest, Option.some.injEq] at h
    obtain ⟨h1, h2⟩ := foldl_closer_min t cs a
    intro m hm
    rcases List.mem_cons.mp hm with rfl | hm
    · exact h ▸ h1
    · exact h ▸ h2 m hm

lemma pickClosest_append_tie {t : ℚ} {ns : List (ℕ × Note)} {c b : ℕ × Note}
    (h : pickClosest t ns = some c)
    (hb : |b.2.timestamp - t| ≤ |c.2.timestamp - t|) :
    pickClosest t (ns ++ [b]) = some b := by
  cases ns with
  | nil => exact absurd h (by simp [pickClosest])
  | cons a cs =>
    rw [pickClosest, Option.some.injEq] at h
    rw [List.cons_append, pickClosest, List.foldl_append, List.foldl_cons,
      List.foldl_nil, h, Option.some.injEq, closer, if_neg (not_lt.mpr hb)]

lemma mem_candidatesOf {lane : ℕ} {t : ℚ} {notes : List Note} {c : ℕ × Note}
    (h : c ∈ candidatesOf lane t notes) :
    notes[c.1]? = some c.2 ∧ c.2.lane = lane ∧ c.2.hit = false ∧
      |c.2.timestamp - t| ≤ MISS_WINDOW := by
  obtain ⟨i, n⟩ := c
  rw [candidatesOf, mem_filterP] at h
  obtain ⟨hm, he⟩ := h
  exact ⟨List.mk_mem_enum_iff_getElem?.mp hm, he.1, he.2.1, he.2.2⟩

lemma judge_eq_some {lane : ℕ} {t : ℚ} {s s' : GameState} {r : JudgmentResult}
    (h : judge lane t s = (s', some r)) :
    ∃ i, pickClosest t (candidatesOf lane t s.notes) = some (i, r.note) ∧
      r.lane = lane ∧ r.tier = judgmentOf |r.note.timestamp - t| ∧
      s' = { notes := s.notes.set i { r.note with hit := true }
             score := s.score + pointsOf (judgmentOf |r.note.timestamp - t|)
             combo := s.combo + 1
             maxCombo := max s.maxCombo (s.combo + 1)
             totalHits := s.totalHits + 1 } := by
  unfold judge at h
  cases hp : pickClosest t (candidatesOf lane t s.notes) with
  | none =>
    rw [hp] at h
    exact absurd h (by simp)
  | some c =>
    obtain ⟨i, n⟩ := c
    rw [hp] at h
    simp only [Prod.mk.injEq, Option.some.injEq] at h
    obtain ⟨hs, hr⟩ := h
    subst hs
    subst hr
    exact ⟨i, rfl, rfl, rfl, rfl⟩

lemma judge_eq_none {lane : ℕ} {t : ℚ} {s : GameState}
    (h : ∀ n ∈ s.notes, ¬ (n.lane = lane ∧ n.hit = false ∧
        |n.timestamp - t| ≤ MISS_WINDOW)) :
    judge lane t s = (s, none) := by
  have hc : candidatesOf lane t s.notes = [] := by
    apply filterP_eq_nil
    rintro ⟨i, n⟩ hm
    exact h n (List.getElem?_mem (List.mk_mem_enum_iff_getElem?.mp hm))
  rw [judge, hc]
  rfl

/-! ## Concrete material for witnesses and counterexamples -/

/-- A lane-0 note at 1.0 s, flattened index 0. -/
def noteA : Note := ⟨"hola", "hello", 1, 1, 0, false, "0-0"⟩

/-- A second lane-0 note also at 1.0 s (an exact timing tie with
`noteA`), flattened index 1. -/
def noteB : Note := ⟨"sol", "sun", 1, 1, 0, false, "0-1"⟩

/-- A lane-0 note at 1.05 s. -/
def noteC : Note := ⟨"luz", "light", 21/20, 1, 0, false, "0-1"⟩

/-- A lane-2 note at 1.0 s with nothing else around. -/
def noteD : Note := ⟨"mar", "sea", 1, 1, 2, false, "0-2"⟩

/-- The spec's four-word one-line track: timestamps [1.0, 1.0, 2.0, 2.0],
so the lanes come out as [0, 1, 2, 3]. -/
def sampleTrack : List KaraokeLine :=
  [⟨0, [⟨0, "uno", 1, 1⟩, ⟨1, "dos", 1, 1⟩, ⟨2, "tres", 1, 2⟩, ⟨3, "cuatro", 1, 2⟩]⟩]

/-! ## Claim theorems -/

/-- C1: for every timing track and every difficulty in 1..5, `createNotes`
equals the reference generation written from the spec (flatten all words
in (line, word) order with lane `(lineIndex + wordIndex) % 4`, id
`"<lineIndex>-<wordIndex>"` and `hit = false`, then keep the flattened
indices the difficulty table selects); consequently the output is a
subsequence of the flattened list, and difficulty 5 returns every note. -/
theorem createNotes_matches_spec (translateWord : String → String)
    (lyrics : List KaraokeLine) (difficulty : ℕ)
    (h1 : 1 ≤ difficulty) (h5 : difficulty ≤ 5) :
    createNotes translateWord lyrics difficulty =
        specGenerate translateWord lyrics difficulty ∧
    (createNotes translateWord lyrics difficulty).Sublist
        (flattenNotes translateWord lyrics) ∧
    (difficulty = 5 →
      createNotes translateWord lyrics difficulty =
        flattenNotes translateWord lyrics) := by
  refine ⟨?_, ?_, ?_⟩
  · rw [createNotes, specGenerate]
    apply filterIdxFrom_congr
    intro j
    interval_cases difficulty <;> simp [difficultyKeep, specKeep]
  · rw [createNotes]
    exact filterIdxFrom_sublist _ _ 0
  · rintro rfl
    rw [createNotes]
    apply filterIdxFrom_true
    intro j
    simp [difficultyKeep]

/-- Witness for C1 at difficulty 3 on the concrete sample track. -/
theorem createNotes_matches_spec_witness :
    (1 ≤ 3 ∧ 3 ≤ 5) ∧
    (createNotes (fun w => w) sampleTrack 3 = specGenerate (fun w => w) sampleTrack 3 ∧
     (createNotes (fun w => w) sampleTrack 3).Sublist (flattenNotes (fun w => w) sampleTrack) ∧
     (3 = 5 → createNotes (fun w => w) sampleTrack 3 = flattenNotes (fun w => w) sampleTrack)) :=
  ⟨⟨by norm_num, by norm_num⟩,
   createNotes_matches_spec (fun w => w) sampleTrack 3 (by norm_num) (by norm_num)⟩

/-- C2: for every judged input, the tier is the pure function `judgmentOf`
of the absolute timing delta of the selected note — PERFECT for
`d ≤ 0.08`, GOOD for `0.08 < d ≤ 0.15`, OK for `0.15 < d ≤ 0.25` — and
every tier awards the same 25 points, so the tier never affects the
score. -/
theorem judged_tier_pure (lane : ℕ) (t : ℚ) (s s' : GameState)
    (r : JudgmentResult) (h : judge lane t s = (s', some r)) :
    r.tier = judgmentOf |r.note.timestamp - t| ∧
    (|r.note.timestamp - t| ≤ 8/100 → r.tier = Judgment.PERFECT) ∧
    (8/100 < |r.note.timestamp - t| → |r.note.timestamp - t| ≤ 15/100 →
      r.tier = Judgment.GOOD) ∧
    (15/100 < |r.note.timestamp - t| → |r.note.timestamp - t| ≤ 25/100 →
      r.tier = Judgment.OK) ∧
    (∀ j, pointsOf j = 25) ∧ s'.score = s.score + 25 := by
  obtain ⟨i, hp, hl, ht, hs⟩ := judge_eq_some h
  have hpts : ∀ j, pointsOf j = 25 := by intro j; cases j <;> rfl
  refine ⟨ht, ?_, ?_, ?_, hpts, ?_⟩
  · intro hd
    rw [ht, judgmentOf, if_pos (show |r.note.timestamp - t| ≤ PERFECT_WINDOW from hd)]
  · intro hd1 hd2
    rw [ht, judgmentOf, if_neg (not_le.mpr (show PERFECT_WINDOW < _ from hd1)),
      if_pos (show |r.note.timestamp - t| ≤ GOOD_WINDOW from hd2)]
  · intro hd1 _
    rw [ht, judgmentOf,
      if_neg (not_le.mpr (show PERFECT_WINDOW < _ from
        lt_trans (by norm_num [PERFECT_WINDOW, GOOD_WINDOW]) hd1)),
      if_neg (not_le.mpr (show GOOD_WINDOW < _ from hd1))]
  · rw [hs]
    simp [hpts]

/-- Witness for C2: a concrete PERFECT judgment on `noteA`. -/
theorem judged_tier_pure_witness :
    judge 0 1 (startState [noteA]) =
      ({ notes := [{ noteA with hit := true }], score := 25, combo := 1,
         maxCombo := 1, totalHits := 1 },
       some { lane := 0, tier := Judgment.PERFECT, note := noteA }) ∧
    ({ lane := 0, tier := Judgment.PERFECT, note := noteA : JudgmentResult }.tier =
      judgmentOf |noteA.timestamp - 1| ∧
     (|noteA.timestamp - 1| ≤ 8/100 →
       ({ lane := 0, tier := Judgment.PERFECT, note := noteA : JudgmentResult }.tier =
         Judgment.PERFECT)) ∧
     (8/100 < |noteA.timestamp - 1| → |noteA.timestamp - 1| ≤ 15/100 →
       ({ lane := 0, tier := Judgment.PERFECT, note := noteA : JudgmentResult }.tier =
         Judgment.GOOD)) ∧
     (15/100 < |noteA.timestamp - 1| → |noteA.timestamp - 1| ≤ 25/100 →
       ({ lane := 0, tier := Judgment.PERFECT, note := noteA : JudgmentResult }.tier =
         Judgment.OK)) ∧
     (∀ j, pointsOf j = 25) ∧
     ({ notes := [{ noteA with hit := true }], score := 25, combo := 1,
        maxCombo := 1, totalHits := 1 : GameState }.score =
       (startState [noteA]).score + 25)) := by
  have hj : judge 0 1 (startState [noteA]) =
      ({ notes := [{ noteA with hit := true }], score := 25, combo := 1,
         maxCombo := 1, totalHits := 1 },
       some { lane := 0, tier := Judgment.PERFECT, note := noteA }) := by
    norm_num [judge, candidatesOf, filterP, eligible, pickClosest, closer,
      judgmentOf, pointsOf, startState, MISS_WINDOW, PERFECT_WINDOW, GOOD_WINDOW,
      List.enum, List.enumFrom, abs_of_nonneg, abs_of_nonpos, noteA]
  exact ⟨hj, judged_tier_pure 0 1 (startState [noteA]) _ _ hj⟩

/-- C3: every judged note was an eligible candidate at selection time: it
is in the pressed lane, unhit, and within `MISS_WINDOW` (0.25 s) of the
current time; a note farther away is never judged. -/
theorem judged_note_in_window (lane : ℕ) (t : ℚ) (s s' : GameState)
    (r : JudgmentResult) (h : judge lane t s = (s', some r)) :
    r.note.lane = lane ∧ r.note.hit = false ∧
      |r.note.timestamp - t| ≤ MISS_WINDOW := by
  obtain ⟨i, hp, _, _, _⟩ := judge_eq_some h
  have hm := mem_candidatesOf (pickClosest_mem hp)
  exact ⟨hm.2.1, hm.2.2.1, hm.2.2.2⟩

/-- Witness for C3: the concrete PERFECT judgment of `noteA`. -/
theorem judged_note_in_window_witness :
    judge 0 1 (startState [noteA]) =
      ({ notes := [{ noteA with hit := true }], score := 25, combo := 1,
         maxCombo := 1, totalHits := 1 },
       some { lane := 0, tier := Judgment.PERFECT, note := noteA }) ∧
    (noteA.lane = 0 ∧ noteA.hit = false ∧ |noteA.timestamp - 1| ≤ MISS_WINDOW) := by
  have hj : judge 0 1 (startState [noteA]) =
      ({ notes := [{ noteA with hit := true }], score := 25, combo := 1,
         maxCombo := 1, totalHits := 1 },
       some { lane := 0, tier := Judgment.PERFECT, note := noteA }) := by
    norm_num [judge, candidatesOf, filterP, eligible, pickClosest, closer,
      judgmentOf, pointsOf, startState, MISS_WINDOW, PERFECT_WINDOW, GOOD_WINDOW,
      List.enum, List.enumFrom, abs_of_nonneg, abs_of_nonpos, noteA]
  exact ⟨hj, judged_note_in_window 0 1 (startState [noteA]) _ _ hj⟩

/-- C4 counterexample: `noteA` (flattened position 0) and `noteB`
(position 1) are both candidates in lane 0 with exactly equal timing
deltas, yet the judged note is the LATER candidate `noteB`, not the
earlier `noteA` — the reduce step keeps the accumulator only on a
strictly smaller delta, so an exact tie moves to the later candidate. -/
theorem tie_pick_counterexample :
    candidatesOf 0 1 [noteA, noteB] = [(0, noteA), (1, noteB)] ∧
    |noteA.timestamp - 1| = |noteB.timestamp - 1| ∧
    (judge 0 1 (startState [noteA, noteB])).2 =
      some { lane := 0, tier := Judgment.PERFECT, note := noteB } ∧
    noteB ≠ noteA := by
  refine ⟨?_, ?_, ?_, ?_⟩
  · norm_num [candidatesOf, filterP, eligible, MISS_WINDOW, List.enum,
      List.enumFrom, abs_of_nonneg, abs_of_nonpos, noteA, noteB]
  · norm_num [noteA, noteB]
  · norm_num [judge, candidatesOf, filterP, eligible, pickClosest, closer,
      judgmentOf, pointsOf, startState, MISS_WINDOW, PERFECT_WINDOW, GOOD_WINDOW,
      List.enum, List.enumFrom, abs_of_nonneg, abs_of_nonpos, noteA, noteB]
  · simp [noteA, noteB]

/-- C4 (amended): the judged note minimizes the absolute delta over the
candidates, the pick is a deterministic function of the candidate
ordering, and on an exact tie the LATER candidate in the note sequence is
kept; in the spec's scenario (lane-0 notes at 1.0 and 1.05, press at
1.03) the note at 1.05 (delta 0.02) is selected over the note at 1.0
(delta 0.03). -/
theorem judge_selects_closest :
    (∀ lane t s s' r, judge lane t s = (s', some r) →
       ∀ m ∈ candidatesOf lane t s.notes,
         |r.note.timestamp - t| ≤ |m.2.timestamp - t|) ∧
    (∀ (t : ℚ) (ns : List (ℕ × Note)) (c b : ℕ × Note),
       pickClosest t ns = some c →
       |b.2.timestamp - t| ≤ |c.2.timestamp - t| →
       pickClosest t (ns ++ [b]) = some b) ∧
    (judge 0 (103/100) (startState [noteA, noteC])).2 =
      some { lane := 0, tier := Judgment.PERFECT, note := noteC } := by
  refine ⟨?_, ?_, ?_⟩
  · intro lane t s s' r h m hm
    obtain ⟨i, hp, _, _, _⟩ := judge_eq_some h
    exact pickClosest_min hp m hm
  · intro t ns c b hp hb
    exact pickClosest_append_tie hp hb
  · norm_num [judge, candidatesOf, filterP, eligible, pickClosest, closer,
      judgmentOf, pointsOf, startState, MISS_WINDOW, PERFECT_WINDOW, GOOD_WINDOW,
      List.enum, List.enumFrom, abs_of_nonneg, abs_of_nonpos, noteA, noteC]

/-- Witness for the amended C4: the minimality part applied to the
scenario's judgment, with the farther candidate `(0, noteA)`. -/
theorem judge_selects_closest_witness :
    (judge 0 (103/100) (startState [noteA, noteC]) =
      ({ notes := [noteA, { noteC with hit := true }], score := 25, combo := 1,
         maxCombo := 1, totalHits := 1 },
       some { lane := 0, tier := Judgment.PERFECT, note := noteC }) ∧
     (0, noteA) ∈ candidatesOf 0 (103/100) (startState [noteA, noteC]).notes) ∧
    |noteC.timestamp - 103/100| ≤ |noteA.timestamp - 103/100| := by
  have hj : judge 0 (103/100) (startState [noteA, noteC]) =
      ({ notes := [noteA, { noteC with hit := true }], score := 25, combo := 1,
         maxCombo := 1, totalHits := 1 },
       some { lane := 0, tier := Judgment.PERFECT, note := noteC }) := by
    norm_num [judge, candidatesOf, filterP, eligible, pickClosest, closer,
      judgmentOf, pointsOf, startState, MISS_WINDOW, PERFECT_WINDOW, GOOD_WINDOW,
      List.enum, List.enumFrom, abs_of_nonneg, abs_of_nonpos, noteA, noteC]
  have hm : (0, noteA) ∈ candidatesOf 0 (103/100) (startState [noteA, noteC]).notes := by
    norm_num [candidatesOf, filterP, eligible, startState, MISS_WINDOW,
      List.enum, List.enumFrom, abs_of_nonneg, abs_of_nonpos, noteA, noteC]
  exact ⟨⟨hj, hm⟩,
    judge_selects_closest.1 0 (103/100) (startState [noteA, noteC]) _ _ hj (0, noteA) hm⟩

/-- C5: a successful judgment has exactly these effects: the judged note
(at its position in the note list) gets `hit = true`, the score grows by
25, the streak by 1, the max streak becomes the max of itself and the new
streak, the hit count grows by 1, and a result carrying lane, tier and
note is produced; in the spec's four-word scenario, pressing lane 0 at
1.02 yields PERFECT with score 25 and streak 1. -/
theorem judge_effects :
    (∀ lane t s s' r, judge lane t s = (s', some r) →
       ∃ i, s.notes[i]? = some r.note ∧
         s'.notes = s.notes.set i { r.note with hit := true } ∧
         s'.score = s.score + 25 ∧
         s'.combo = s.combo + 1 ∧
         s'.maxCombo = max s.maxCombo (s.combo + 1) ∧
         s'.totalHits = s.totalHits + 1 ∧
         r.lane = lane) ∧
    ((createNotes (fun w => w) sampleTrack 5).map Note.lane = [0, 1, 2, 3] ∧
     (judge 0 (51/50) (startState (createNotes (fun w => w) sampleTrack 5))).2.map
         JudgmentResult.tier = some Judgment.PERFECT ∧
     (judge 0 (51/50) (startState (createNotes (fun w => w) sampleTrack 5))).1.score = 25 ∧
     (judge 0 (51/50) (startState (createNotes (fun w => w) sampleTrack 5))).1.combo = 1) := by
  constructor
  · intro lane t s s' r h
    obtain ⟨i, hp, hl, ht, hs⟩ := judge_eq_some h
    have hpts : ∀ j, pointsOf j = 25 := by intro j; cases j <;> rfl
    refine ⟨i, (mem_candidatesOf (pickClosest_mem hp)).1, ?_, ?_, ?_, ?_, ?_, hl⟩
    · rw [hs]
    · rw [hs]; simp [hpts]
    · rw [hs]
    · rw [hs]
    · rw [hs]
  · refine ⟨?_, ?_, ?_, ?_⟩ <;>
      norm_num [judge, candidatesOf, filterP, eligible, pickClosest, closer,
        judgmentOf, pointsOf, startState, MISS_WINDOW, PERFECT_WINDOW, GOOD_WINDOW,
        createNotes, flattenNotes, filterIdxFrom, difficultyKeep,
        List.enum, List.enumFrom, abs_of_nonneg, abs_of_nonpos, sampleTrack]

/-- Witness for C5: the effects at the concrete PERFECT judgment of
`noteA`. -/
theorem judge_effects_witness :
    judge 0 1 (startState [noteA]) =
      ({ notes := [{ noteA with hit := true }], score := 25, combo := 1,
         maxCombo := 1, totalHits := 1 },
       some { lane := 0, tier := Judgment.PERFECT, note := noteA }) ∧
    (∃ i, (startState [noteA]).notes[i]? =
        some ({ lane := 0, tier := Judgment.PERFECT, note := noteA : JudgmentResult }).note ∧
      ({ notes := [{ noteA with hit := true }], score := 25, combo := 1,
         maxCombo := 1, totalHits := 1 : GameState }).notes =
        (startState [noteA]).notes.set i { noteA with hit := true } ∧
      (25 : ℕ) = (startState [noteA]).score + 25 ∧
      (1 : ℕ) = (startState [noteA]).combo + 1 ∧
      (1 : ℕ) = max (startState [noteA]).maxCombo ((startState [noteA]).combo + 1) ∧
      (1 : ℕ) = (startState [noteA]).totalHits + 1 ∧
      ({ lane := 0, tier := Judgment.PERFECT, note := noteA : JudgmentResult }).lane = 0) := by
  have hj : judge 0 1 (startState [noteA]) =
      ({ notes := [{ noteA with hit := true }], score := 25, combo := 1,
         maxCombo := 1, totalHits := 1 },
       some { lane := 0, tier := Judgment.PERFECT, note := noteA }) := by
    norm_num [judge, candidatesOf, filterP, eligible, pickClosest, closer,
      judgmentOf, pointsOf, startState, MISS_WINDOW, PERFECT_WINDOW, GOOD_WINDOW,
      List.enum, List.enumFrom, abs_of_nonneg, abs_of_nonpos, noteA]
  exact ⟨hj, judge_effects.1 0 1 (startState [noteA]) _ _ hj⟩

/-- C6: an input event with an empty candidate set (no unhit note of that
lane within 0.25 s) returns no result and leaves the state exactly
unchanged; in particular every press on an empty note list is a no-op and
raises no error. -/
theorem judge_no_candidate_noop :
    (∀ lane t s,
       (∀ n ∈ s.notes, ¬ (n.lane = lane ∧ n.hit = false ∧
           |n.timestamp - t| ≤ MISS_WINDOW)) →
       judge lane t s = (s, none)) ∧
    (∀ lane t sc cb mc th,
       judge lane t { notes := [], score := sc, combo := cb,
                      maxCombo := mc, totalHits := th } =
         ({ notes := [], score := sc, combo := cb,
            maxCombo := mc, totalHits := th }, none)) := by
  constructor
  · intro lane t s h
    exact judge_eq_none h
  · intro lane t sc cb mc th
    exact judge_eq_none (by simp)

/-- Witness for C6: pressing lane 0 while the only note lives in lane 2
changes nothing. -/
theorem judge_no_candidate_noop_witness :
    (∀ n ∈ (startState [noteD]).notes,
       ¬ (n.lane = 0 ∧ n.hit = false ∧ |n.timestamp - 1| ≤ MISS_WINDOW)) ∧
    judge 0 1 (startState [noteD]) = (startState [noteD], none) := by
  have h : ∀ n ∈ (startState [noteD]).notes,
      ¬ (n.lane = 0 ∧ n.hit = false ∧ |n.timestamp - 1| ≤ MISS_WINDOW) := by
    intro n hn
    simp only [startState, List.mem_singleton] at hn
    subst hn
    simp [noteD]
  exact ⟨h, judge_no_candidate_noop.1 0 1 (startState [noteD]) h⟩

lemma missNote_of_hit {t : ℚ} {n : Note} (h : n.hit = true) : missNote t n = n := by
  rw [missNote, if_neg]
  rintro ⟨h0, -⟩
  rw [h] at h0
  exact Bool.noConfusion h0

lemma not_expired_missNote (t : ℚ) (n : Note) : ¬ expired t (missNote t n) := by
  rw [missNote]
  by_cases he : expired t n
  · rw [if_pos he]
    rintro ⟨h0, -⟩
    exact Bool.noConfusion h0
  · rw [if_neg he]
    exact he

lemma missNote_idem (t : ℚ) (n : Note) : missNote t (missNote t n) = missNote t n := by
  conv_lhs => rw [missNote]
  rw [if_neg (not_expired_missNote t n)]

lemma judge_none_inv {lane : ℕ} {t : ℚ} {s s' : GameState}
    (h : judge lane t s = (s', none)) : s' = s := by
  unfold judge at h
  cases hp : pickClosest t (candidatesOf lane t s.notes) with
  | none =>
    rw [hp] at h
    simp only [Prod.mk.injEq] at h
    exact h.1.symm
  | some c =>
    rw [hp] at h
    simp at h

lemma stepEvent_hit_monotone (e : GameEvent) (s : GameState) (i : ℕ) (n : Note)
    (h : s.notes[i]? = some n) (hn : n.hit = true) :
    ∃ n', (stepEvent e s).notes[i]? = some n' ∧ n'.hit = true := by
  cases e with
  | press lane t =>
    show ∃ n', (judge lane t s).1.notes[i]? = some n' ∧ n'.hit = true
    rcases hj : judge lane t s with ⟨s', ro⟩
    cases ro with
    | none =>
      rw [judge_none_inv hj]
      exact ⟨n, h, hn⟩
    | some r =>
      obtain ⟨j, hp, _, _, hs⟩ := judge_eq_some hj
      rw [hs]
      by_cases hij : j = i
      · subst hij
        have hlen : j < s.notes.length := by
          by_contra hge
          rw [List.getElem?_eq_none (le_of_not_lt hge)] at h
          exact Option.noConfusion h
        refine ⟨{ r.note with hit := true }, ?_, rfl⟩
        simp [List.getElem?_set, hlen]
      · refine ⟨n, ?_, hn⟩
        simp only [List.getElem?_set, if_neg hij]
        exact h
  | tick t =>
    show ∃ n', ((sweep t s).notes)[i]? = some n' ∧ n'.hit = true
    refine ⟨n, ?_, hn⟩
    show ((s.notes.map (missNote t)))[i]? = some n
    rw [List.getElem?_map, h, Option.map_some', missNote_of_hit hn]

lemma runEvents_hit_monotone (events : List GameEvent) :
    ∀ (s : GameState) (i : ℕ) (n : Note), s.notes[i]? = some n → n.hit = true →
      ∃ n', (runEvents events s).notes[i]? = some n' ∧ n'.hit = true := by
  induction events with
  | nil => intro s i n h hn; exact ⟨n, h, hn⟩
  | cons e es ih =>
    intro s i n h hn
    obtain ⟨n', h', hn'⟩ := stepEvent_hit_monotone e s i n h hn
    exact ih (stepEvent e s) i n' h' hn'

/-- C7: the auto-miss sweep at time `t` marks every unhit note with
`t > timestamp + 0.25` as hit and resets the streak to 0 when such a note
exists, leaves score and max streak untouched, and is idempotent (an
already-marked note is skipped, so re-sweeping at the same time changes
nothing). -/
theorem sweep_spec (t : ℚ) (s : GameState) :
    (∀ (i : ℕ) (n : Note), s.notes[i]? = some n → n.hit = false →
       n.timestamp + MISS_WINDOW < t →
       (sweep t s).notes[i]? = some { n with hit := true }) ∧
    (sweep t s).score = s.score ∧
    (sweep t s).maxCombo = s.maxCombo ∧
    ((∃ n ∈ s.notes, expired t n) → (sweep t s).combo = 0) ∧
    sweep t (sweep t s) = sweep t s := by
  refine ⟨?_, rfl, rfl, ?_, ?_⟩
  · intro i n h hh ht
    show ((s.notes.map (missNote t)))[i]? = some { n with hit := true }
    rw [List.getElem?_map, h, Option.map_some', missNote, if_pos ⟨hh, ht⟩]
  · intro he
    show (if ∃ n ∈ s.notes, expired t n then 0 else s.combo) = 0
    rw [if_pos he]
  · have hnotes : (s.notes.map (missNote t)).map (missNote t) =
        s.notes.map (missNote t) := by
      rw [List.map_map]
      exact List.map_congr_left fun n _ => missNote_idem t n
    have hcombo : ¬ ∃ n ∈ s.notes.map (missNote t), expired t n := by
      rintro ⟨n, hn, he⟩
      obtain ⟨m, -, rfl⟩ := List.mem_map.mp hn
      exact not_expired_missNote t m he
    rw [sweep, sweep]
    simp only [hnotes]
    rw [if_neg hcombo]

/-- A session mid-way: one unhit lane-2 note at 1.0 s, streak 2. -/
def missState : GameState :=
  { notes := [noteD], score := 50, combo := 2, maxCombo := 2, totalHits := 2 }

/-- Witness for C7: sweeping `missState` at `t = 1.26` (0.26 s past the
note) marks the note missed and resets the streak 2 to 0. -/
theorem sweep_spec_witness :
    ((missState.notes[0]? = some noteD ∧ noteD.hit = false ∧
        noteD.timestamp + MISS_WINDOW < 63/50) ∧
      (sweep (63/50) missState).notes[0]? = some { noteD with hit := true }) ∧
    ((∃ n ∈ missState.notes, expired (63/50) n) ∧
      (sweep (63/50) missState).combo = 0) := by
  have h1 : missState.notes[0]? = some noteD := rfl
  have h2 : noteD.hit = false := rfl
  have h3 : noteD.timestamp + MISS_WINDOW < 63/50 := by
    norm_num [noteD, MISS_WINDOW]
  have he : ∃ n ∈ missState.notes, expired (63/50) n :=
    ⟨noteD, by simp [missState], ⟨h2, h3⟩⟩
  exact ⟨⟨⟨h1, h2, h3⟩, (sweep_spec (63/50) missState).1 0 noteD h1 h2 h3⟩,
    ⟨he, (sweep_spec (63/50) missState).2.2.2.1 he⟩⟩

lemma gradeChain_fst (pct : ℚ) :
    (if 97 ≤ pct then ("A+", "text-yellow-300")
     else if 93 ≤ pct then ("A", "text-yellow-400")
     else if 90 ≤ pct then ("A-", "text-yellow-500")
     else if 87 ≤ pct then ("B+", "text-green-300")
     else if 83 ≤ pct then ("B", "text-green-400")
     else if 80 ≤ pct then ("B-", "text-green-500")
     else if 77 ≤ pct then ("C+", "text-blue-300")
     else if 73 ≤ pct then ("C", "text-blue-400")
     else if 70 ≤ pct then ("C-", "text-blue-500")
     else if 67 ≤ pct then ("D+", "text-orange-300")
     else if 63 ≤ pct then ("D", "text-orange-400")
     else if 60 ≤ pct then ("D-", "text-orange-500")
     else ("F", "text-red-400")).1 = gradeOfPct pct := by
  rw [gradeOfPct]
  simp only [apply_ite (Prod.fst : String × String → String)]

/-- C8: the grade is the pure threshold function of the percentage
`hitCount / totalNoteCount * 100` (A+ at 97 %, … , D- at 60 %, otherwise
F), a zero note total short-circuits to F before any division, and the
spec's boundary cases come out as A, A- and F. -/
theorem getGrade_spec :
    (∀ (h total : ℕ), total = 0 → (getGrade h total).1 = "F") ∧
    (∀ (h total : ℕ), total ≠ 0 →
      (getGrade h total).1 = gradeOfPct ((h : ℚ) / (total : ℚ) * 100)) ∧
    (getGrade 93 100).1 = "A" ∧ (getGrade 90 100).1 = "A-" ∧
    (getGrade 0 0).1 = "F" := by
  refine ⟨?_, ?_, ?_, ?_, ?_⟩
  · intro h total ht
    rw [getGrade, if_pos ht]
  · intro h total ht
    rw [getGrade, if_neg ht]
    exact gradeChain_fst ((h : ℚ) / (total : ℚ) * 100)
  · norm_num [getGrade]
  · norm_num [getGrade]
  · norm_num [getGrade]

/-- Witness for C8: 50 of 100 notes hit goes through the percentage
branch. -/
theorem getGrade_spec_witness :
    (100 : ℕ) ≠ 0 ∧
    (getGrade 50 100).1 = gradeOfPct ((50 : ℚ) / (100 : ℚ) * 100) :=
  ⟨by norm_num, getGrade_spec.2.1 50 100 (by norm_num)⟩

/-- C9: over any interleaving of judgments and sweeps, a note's hit flag
never reverts from true to false (so it transitions false→true at most
once), and an input event never claims an already-hit note: every judged
note has `hit = false` at selection time. -/
theorem hit_flag_monotone :
    (∀ (events : List GameEvent) (s : GameState) (i : ℕ) (n : Note),
       s.notes[i]? = some n → n.hit = true →
       ∃ n', (runEvents events s).notes[i]? = some n' ∧ n'.hit = true) ∧
    (∀ (lane : ℕ) (t : ℚ) (s s' : GameState) (r : JudgmentResult),
       judge lane t s = (s', some r) → r.note.hit = false) := by
  constructor
  · intro events s i n h hn
    exact runEvents_hit_monotone events s i n h hn
  · intro lane t s s' r h
    obtain ⟨i, hp, _, _, _⟩ := judge_eq_some h
    exact (mem_candidatesOf (pickClosest_mem hp)).2.2.1

/-- Witness for C9: a hit note survives a press and a sweep with its flag
still true. -/
theorem hit_flag_monotone_witness :
    ((startState [{ noteA with hit := true }]).notes[0]? =
        some { noteA with hit := true } ∧
      ({ noteA with hit := true : Note }).hit = true) ∧
    (∃ n', (runEvents [GameEvent.press 0 1, GameEvent.tick 2]
        (startState [{ noteA with hit := true }])).notes[0]? = some n' ∧
      n'.hit = true) := by
  have h1 : (startState [{ noteA with hit := true }]).notes[0]? =
      some { noteA with hit := true } := rfl
  have h2 : ({ noteA with hit := true : Note }).hit = true := rfl
  exact ⟨⟨h1, h2⟩,
    hit_flag_monotone.1 [GameEvent.press 0 1, GameEvent.tick 2]
      (startState [{ noteA with hit := true }]) 0 { noteA with hit := true } h1 h2⟩

lemma stepEvent_score_inv (e : GameEvent) (s : GameState)
    (h : s.score = 25 * s.totalHits) :
    (stepEvent e s).score = 25 * (stepEvent e s).totalHits := by
  cases e with
  | press lane t =>
    show (judge lane t s).1.score = 25 * (judge lane t s).1.totalHits
    rcases hj : judge lane t s with ⟨s', ro⟩
    cases ro with
    | none => rw [judge_none_inv hj]; exact h
    | some r =>
      obtain ⟨i, _, _, _, hs⟩ := judge_eq_some hj
      have hpts : ∀ j, pointsOf j = 25 := by intro j; cases j <;> rfl
      rw [hs]
      simp only [hpts]
      omega
  | tick t =>
    show (sweep t s).score = 25 * (sweep t s).totalHits
    exact h

lemma runEvents_score_inv (events : List GameEvent) :
    ∀ s : GameState, s.score = 25 * s.totalHits →
      (runEvents events s).score = 25 * (runEvents events s).totalHits := by
  induction events with
  | nil => intro s h; exact h
  | cons e es ih => intro s h; exact ih (stepEvent e s) (stepEvent_score_inv e s h)

/-- C10: from a fresh session (all counters zero) and through any
interleaving of judgments and auto-miss sweeps, the invariant
`score = 25 * hitCount` holds at every reachable state. -/
theorem score_is_25_per_hit (events : List GameEvent) (notes : List Note) :
    (runEvents events (startState notes)).score =
      25 * (runEvents events (startState notes)).totalHits :=
  runEvents_score_inv events (startState notes) rfl

end HablaBeat
